import Mathlib

/-!
Verification of the egalax-rs touchscreen driver core.

This file gives a shallow embedding, in Lean 4, of the data model and
operations of the egalax-rs repository that the specification claims talk
about, and settles each claim against it.

Embedding conventions:
- Machine integers (u8, u16, i32) are embedded as Nat or Int/Rat; none of
  the modelled operations overflow on the inputs considered.
- Floating point values (f32, f64) are embedded as exact rationals; the
  special value NaN, which the legacy geometry module can produce, is
  modelled by an Option type where none stands for NaN.  Rounding of a
  float to an integer (Rust round, ties away from zero) is modelled
  exactly by rustRound below.  The comparison of a Euclidean distance
  (a square root) against a nonnegative threshold is embedded as the
  equivalent comparison of the squared distance against the squared
  threshold, which avoids irrational square roots.
- A Rust panic (unreachable!, assert!, Option::unwrap on None) is
  modelled by the result none of an Option-valued function; a normal
  result is some.
- Phantom dimension tags (udim with X or Y markers) are compile-time
  only and are erased in the embedding.
-/

namespace Proto

/-! ## Packet decoder (protocol.rs, USBPacket::try_parse)

Embedding of src/protocol.rs.  The try_parse function of the two copies of
protocol.rs in the repository (the top-level crate and the workspace
egalax-rs crate) have identical decode logic; this embedding covers both.
-/

/-- A raw 6-byte frame from the touch controller; each field is one byte. -/
structure RawPacket where
  b0 : ℕ
  b1 : ℕ
  b2 : ℕ
  b3 : ℕ
  b4 : ℕ
  b5 : ℕ
  deriving DecidableEq, Repr

/-- A boolean indicating if a finger touch is detected. -/
inductive TouchState where
  | IsTouching
  | NotTouching
  deriving DecidableEq, Repr

/-- A separate dimension enum (units.rs, DimE). -/
inductive DimE where
  | X
  | Y
  deriving DecidableEq, Repr

/-- Decode errors of try_parse (error.rs, ParsePacketError). -/
inductive ParsePacketError where
  | UnexpectedTag (b : ℕ)
  | WrongResolution (d : DimE)
  deriving DecidableEq, Repr

/-- Packet tags currently supported (protocol.rs, PacketTag). -/
inductive PacketTag where
  | TouchEvent
  deriving DecidableEq, Repr

/-- The numeric representation of a packet tag (repr u8 of PacketTag). -/
def PacketTag.toByte : PacketTag → ℕ
  | .TouchEvent => 0x2

/-- A decoded touch packet (protocol.rs, USBPacket). -/
structure USBPacket where
  touch_state : TouchState
  pos_x : ℕ
  pos_y : ℕ
  resolution : ℕ
  deriving DecidableEq, Repr

/-- Bitmask for the touch flag in byte 1 of a raw packet. -/
def TOUCH_STATE_MASK : ℕ := 0x01

/-- Bitmask for the resolution selector in byte 1 of a raw packet. -/
def RESOLUTION_MASK : ℕ := 0x06

/-- The resolution lookup table of try_parse: the match over
packet.0[1] & RESOLUTION_MASK with arms 0x00, 0x02, 0x04, 0x05 and a
final arm that is the unreachable! panic, modelled as none. -/
def resolutionLookup (masked : ℕ) : Option ℕ :=
  if masked = 0x00 then some 11
  else if masked = 0x02 then some 12
  else if masked = 0x04 then some 13
  else if masked = 0x05 then some 14
  else none

/-- The part of USBPacket::try_parse after the tag check.  The outer
Option models a panic (none exactly when the resolution match hits its
unreachable! arm); the inner Except models the Rust Result. -/
def tryParseAfterTag (packet : RawPacket) : Option (Except ParsePacketError USBPacket) :=
  match resolutionLookup (Nat.land packet.b1 RESOLUTION_MASK) with
  | none => none
  | some resolution =>
    let touch_state :=
      if Nat.land packet.b1 TOUCH_STATE_MASK = 0x01 then TouchState.IsTouching
      else TouchState.NotTouching
    let y := (packet.b3 <<< 8) ||| packet.b2
    let x := (packet.b5 <<< 8) ||| packet.b4
    if y >>> resolution ≠ 0x00 then
      some (Except.error (ParsePacketError.WrongResolution DimE.Y))
    else if x >>> resolution ≠ 0x00 then
      some (Except.error (ParsePacketError.WrongResolution DimE.X))
    else
      some (Except.ok { touch_state, pos_x := x, pos_y := y, resolution })

/-- Embedding of USBPacket::try_parse.  Checks the expected tag, then
decodes resolution, touch flag and little-endian coordinates. -/
def tryParse (packet : RawPacket) (expected_tag : Option PacketTag) :
    Option (Except ParsePacketError USBPacket) :=
  match expected_tag with
  | some tag =>
    if packet.b0 ≠ tag.toByte then
      some (Except.error (ParsePacketError.UnexpectedTag packet.b0))
    else
      tryParseAfterTag packet
  | none => tryParseAfterTag packet

end Proto

namespace LegacyGeo

/-! ## Legacy geometry (src/geo.rs of the top-level crate)

The geometry module used by driver.rs.  Scalars (f32 and f64 in the
source) are embedded as exact rationals; the NaN produced by
linear_factor on a zero-length range is modelled by none. -/

/-- Rust float rounding to an integer (round half away from zero),
embedded exactly on rationals; the result is an integer-valued rational. -/
def rustRound (q : ℚ) : ℚ :=
  if 0 ≤ q then ((⌊q + 1 / 2⌋ : ℤ) : ℚ) else ((-⌊-q + 1 / 2⌋ : ℤ) : ℚ)

/-- A point of two coordinates in X and Y dimensions (geo.rs, Point2D). -/
structure Point2D where
  x : ℚ
  y : ℚ
  deriving DecidableEq, Repr

/-- Squared Euclidean distance between two points.  The driver compares
the (nonnegative) Euclidean distance of euc_distance_to with the
nonnegative threshold; comparing the squares is equivalent and avoids
the irrational square root. -/
def Point2D.eucDistSq (a b : Point2D) : ℚ :=
  (b.x - a.x) ^ 2 + (b.y - a.y) ^ 2

/-- A range of values between a minimum and maximum (geo.rs, Range).
In the legacy module the fields are public and the From instance copies
its inputs, so no sortedness is guaranteed by construction. -/
structure Range where
  min : ℚ
  max : ℚ
  deriving DecidableEq, Repr

/-- linear_factor of the legacy geo.rs: if max equals min the function
returns the f64 NaN constant (modelled by none); otherwise it returns
(max - x) / (max - min). -/
def Range.linear_factor (r : Range) (x : ℚ) : Option ℚ :=
  if r.max = r.min then none
  else some ((r.max - x) / (r.max - r.min))

/-- lerp of the legacy geo.rs: min * t + max * (1 - t), rounded to an
integer by Rust round.  A NaN argument (none) propagates to a NaN
result, as NaN arithmetic and NaN rounding do in floating point. -/
def Range.lerp (r : Range) (t : Option ℚ) : Option ℚ :=
  t.map fun t => rustRound (r.min * t + r.max * (1 - t))

/-- An axis-aligned bounding box (geo.rs, AABB), corners (x1, y1) and
(x2, y2). -/
structure AABB where
  x1 : ℚ
  y1 : ℚ
  x2 : ℚ
  y2 : ℚ
  deriving DecidableEq, Repr

/-- The accessor AABB::x of the legacy geo.rs: the range between the x
coordinates of the two corners, copied without sorting. -/
def AABB.xr (a : AABB) : Range := ⟨a.x1, a.x2⟩

/-- The accessor AABB::y of the legacy geo.rs. -/
def AABB.yr (a : AABB) : Range := ⟨a.y1, a.y2⟩

end LegacyGeo

namespace Drv

open LegacyGeo

/-! ## The gesture driver (driver.rs)

Embedding of Driver::update and EventGen of src/driver.rs.  Real time
(Instant::now() in the source) is passed in as the parameter now; an
update call reads the clock once.  Times and durations are rationals,
in milliseconds. -/

/-- Button identifiers: BTN_LEFT and BTN_RIGHT of driver.rs (the
concrete key codes are opaque to the core). -/
inductive Btn where
  | left
  | right
  deriving DecidableEq, Repr

/-- One evdev output event of a batch: a button press or release, an
absolute move on one axis (whose value is an integer-valued rational, or
none for a NaN coordinate), or the SYN_REPORT marker. -/
inductive Ev where
  | btnPress (b : Btn)
  | btnRelease (b : Btn)
  | moveX (v : Option ℚ)
  | moveY (v : Option ℚ)
  | syn
  deriving DecidableEq, Repr

/-- The monitor configuration consumed by the driver (config.rs):
calibration box in device space, monitor area and total screen space in
output space. -/
structure MonitorConfig where
  calibration_points : AABB
  monitor_area : AABB
  screen_space : AABB
  deriving DecidableEq, Repr

/-- A decoded touch sample as consumed by Driver::update: touch flag and
position. -/
structure Packet where
  touch_state : Proto.TouchState
  pos : Point2D
  deriving DecidableEq, Repr

/-- The driver state (driver.rs, DriverState). -/
structure DriverState where
  touch_state : Proto.TouchState
  is_right_click : Bool
  has_moved : Bool
  p : Point2D
  touch_start_time : Option ℚ
  touch_origin : Option Point2D
  deriving DecidableEq, Repr

/-- DriverState::reset: clear both gesture flags and drop the touch
bookkeeping.  The position and touch flag are untouched, as in the
source. -/
def DriverState.reset (s : DriverState) : DriverState :=
  { s with
    is_right_click := false
    has_moved := false
    touch_start_time := none
    touch_origin := none }

/-- DriverState::default. -/
def default_state : DriverState :=
  { touch_state := Proto.TouchState.NotTouching
    is_right_click := false
    has_moved := false
    p := ⟨0, 0⟩
    touch_start_time := none
    touch_origin := none }

/-- HAS_MOVED_THRESHOLD of driver.rs (pixels, compared against a
Euclidean distance). -/
def HAS_MOVED_THRESHOLD : ℚ := 30

/-- RIGHT_CLICK_THRESHOLD of driver.rs (milliseconds). -/
def RIGHT_CLICK_THRESHOLD : ℚ := 1500

/-- EventGen::emit_move_x: the mapped output x coordinate, i.e. the lerp
over the monitor area at the linear factor of the touch x inside the
calibration box. -/
def emitMoveXVal (cfg : MonitorConfig) (x : ℚ) : Option ℚ :=
  cfg.monitor_area.xr.lerp (cfg.calibration_points.xr.linear_factor x)

/-- EventGen::emit_move_y: the mapped output y coordinate. -/
def emitMoveYVal (cfg : MonitorConfig) (y : ℚ) : Option ℚ :=
  cfg.monitor_area.yr.lerp (cfg.calibration_points.yr.linear_factor y)

/-- The button part of Driver::update: the match on the pair of last and
current touch state.  Returns the button events and the state after the
match (before the touch flag and position are stored).  The value none
models a panic of one of the two unwrap calls in the
touching-while-touching branch. -/
def updateButtons (s : DriverState) (now : ℚ) (pkt : Packet) :
    Option (List Ev × DriverState) :=
  match s.touch_state, pkt.touch_state with
  | Proto.TouchState.NotTouching, Proto.TouchState.NotTouching => some ([], s)
  | Proto.TouchState.IsTouching, Proto.TouchState.NotTouching =>
    some ([Ev.btnRelease Btn.left] ++
      (if s.is_right_click then [Ev.btnRelease Btn.right] else []), s.reset)
  | Proto.TouchState.NotTouching, Proto.TouchState.IsTouching =>
    some ([Ev.btnPress Btn.left],
      { s with touch_start_time := some now, touch_origin := some pkt.pos })
  | Proto.TouchState.IsTouching, Proto.TouchState.IsTouching =>
    if !s.is_right_click && !s.has_moved then
      match s.touch_origin with
      | none => none
      | some touch_origin =>
        if touch_origin.eucDistSq pkt.pos > HAS_MOVED_THRESHOLD ^ 2 then
          some ([], { s with has_moved := true })
        else
          match s.touch_start_time with
          | none => none
          | some touch_start_time =>
            if now - touch_start_time > RIGHT_CLICK_THRESHOLD then
              some ([Ev.btnPress Btn.right], { s with is_right_click := true })
            else
              some ([], s)
    else
      some ([], s)

/-- Driver::update: the button match, then the touch flag and position
are stored and the two move events and the sync marker are appended
(EventGen::finish). -/
def update (cfg : MonitorConfig) (s : DriverState) (now : ℚ) (pkt : Packet) :
    Option (List Ev × DriverState) :=
  (updateButtons s now pkt).map fun r =>
    (r.1 ++ [Ev.moveX (emitMoveXVal cfg pkt.pos.x), Ev.moveY (emitMoveYVal cfg pkt.pos.y), Ev.syn],
      { r.2 with touch_state := pkt.touch_state, p := pkt.pos })

/-- Well-formedness of a driver state: while a touch is in progress, the
touch origin and start time are present.  This is the invariant that
makes the two unwrap calls of the touching-while-touching branch safe. -/
def WF (s : DriverState) : Prop :=
  s.touch_state = Proto.TouchState.IsTouching →
    s.touch_origin ≠ none ∧ s.touch_start_time ≠ none

/-- States reachable from the default state by any sequence of update
calls (with arbitrary configurations, clock values and samples). -/
inductive Reachable : DriverState → Prop where
  | init : Reachable default_state
  | step (cfg : MonitorConfig) (s : DriverState) (now : ℚ) (pkt : Packet)
      (evs : List Ev) (s' : DriverState) :
      Reachable s → update cfg s now pkt = some (evs, s') → Reachable s'

/-- An event is a button press or release. -/
def IsBtnEv (e : Ev) : Prop :=
  (∃ b, e = Ev.btnPress b) ∨ (∃ b, e = Ev.btnRelease b)

/-- Modelled from the spec's words, for comparison only (claim C2): a
batch is zero or one button press/release event, then exactly two move
events (X first, then Y), then one sync marker. -/
def SpecBatchC2 (evs : List Ev) : Prop :=
  (∃ x y, evs = [Ev.moveX x, Ev.moveY y, Ev.syn]) ∨
  (∃ e x y, IsBtnEv e ∧ evs = [e, Ev.moveX x, Ev.moveY y, Ev.syn])

end Drv

/-! ## The spec's mapping formula (claim C4)

The specification states the axis mapping as
t = (v - min)/(max - min) over the calibration range followed by
lerp(t) = (1 - t) * min + t * max over the monitor range.  The source
computes t = (max - v)/(max - min) and lerp(t) = min * t + max * (1 - t);
the two compositions are equal.  The following two definitions are
modelled from the spec's words, for comparison only. -/

/-- Modelled from the spec's words (claim C4): the linear factor
(v - min)/(max - min) of a value in a range. -/
def specLinearFactor (r : LegacyGeo.Range) (v : ℚ) : ℚ :=
  (v - r.min) / (r.max - r.min)

/-- Modelled from the spec's words (claim C4): the interpolation
(1 - t) * min + t * max in a range. -/
def specLerp (r : LegacyGeo.Range) (t : ℚ) : ℚ :=
  (1 - t) * r.min + t * r.max

namespace WGeo

/-! ## Workspace geometry (workspace/egalax-rs/src/geo.rs)

The current geometry module, used by the calibration tool.  Scalars
(i32, with some f32 interpolation) are embedded as exact rationals; the
i32 truncation of the scalar-times-f32 multiplication is elided, which
is the rounding tolerance the claims allow. -/

/-- A point of two coordinates (workspace geo.rs, Point2D). -/
structure Point2D where
  x : ℚ
  y : ℚ
  deriving DecidableEq, Repr

/-- A range of values between a minimum and maximum (workspace geo.rs,
Range).  The fields are private in the source; the constructors below
are the only ways the source builds one. -/
structure Range where
  min : ℚ
  max : ℚ
  deriving DecidableEq, Repr

/-- Range::new: sorts its two inputs. -/
def Range.new (x1 x2 : ℚ) : Range := ⟨Min.min x1 x2, Max.max x1 x2⟩

/-- The From (T, T) instance for Range: copies its two inputs into the
min and max fields without sorting them. -/
def Range.fromPair (a b : ℚ) : Range := ⟨a, b⟩

/-- linear_factor of the workspace geo.rs: 0 on a zero-length range,
otherwise (x - min) / (max - min). -/
def Range.linear_factor (r : Range) (x : ℚ) : ℚ :=
  if r.max = r.min then 0 else (x - r.min) / (r.max - r.min)

/-- lerp of the workspace geo.rs: min * (1 - t) + max * t. -/
def Range.lerp (r : Range) (t : ℚ) : ℚ :=
  r.min * (1 - t) + r.max * t

/-- Range::midpoint: lerp at one half. -/
def Range.midpoint (r : Range) : ℚ := r.lerp (1 / 2)

/-- An axis-aligned bounding box (workspace geo.rs, AABB). -/
structure AABB where
  x1 : ℚ
  y1 : ℚ
  x2 : ℚ
  y2 : ℚ
  deriving DecidableEq, Repr

/-- AABB::new: sorts the two corners componentwise. -/
def AABB.new (x1 y1 x2 y2 : ℚ) : AABB :=
  ⟨Min.min x1 x2, Min.min y1 y2, Max.max x1 x2, Max.max y1 y2⟩

/-- AABB::new_wh: upper-left corner plus width and height. -/
def AABB.new_wh (x y width height : ℚ) : AABB :=
  AABB.new x y (x + width) (y + height)

/-- AABB::union: the smallest box containing both. -/
def AABB.union (a rhs : AABB) : AABB :=
  ⟨Min.min a.x1 rhs.x1, Min.min a.y1 rhs.y1, Max.max a.x2 rhs.x2, Max.max a.y2 rhs.y2⟩

/-- AABB::grow_to_point: the smallest box containing the box and the
point. -/
def AABB.grow_to_point (a : AABB) (point : Point2D) : AABB :=
  ⟨Min.min a.x1 point.x, Min.min a.y1 point.y, Max.max a.x2 point.x, Max.max a.y2 point.y⟩

/-- AABB::translate: shift both corners, then renormalize through new. -/
def AABB.translate (a : AABB) (x y : ℚ) : AABB :=
  AABB.new (a.x1 + x) (a.y1 + y) (a.x2 + x) (a.y2 + y)

/-- The From (T, T, T, T) instance for AABB: delegates to new. -/
def AABB.fromTuple (x1 y1 x2 y2 : ℚ) : AABB := AABB.new x1 y1 x2 y2

/-- AABB::xrange. -/
def AABB.xrange (a : AABB) : Range := Range.new a.x1 a.x2

/-- AABB::yrange. -/
def AABB.yrange (a : AABB) : Range := Range.new a.y1 a.y2

/-- AABB::midpoint. -/
def AABB.midpoint (a : AABB) : Point2D := ⟨a.xrange.midpoint, a.yrange.midpoint⟩

/-- The normalization invariant of an AABB: the first corner is the
componentwise minimum. -/
def AABB.Norm (a : AABB) : Prop := a.x1 ≤ a.x2 ∧ a.y1 ≤ a.y2

end WGeo

namespace Cal

/-! ## Calibration (workspace/egalax-config/src/app/calibrate.rs)

The stage machine, touch cloud and solve step of the calibration
wizard. -/

/-- The fixed fractional offset of the four on-screen targets
(calibrate.rs, CIRCLE_OFFSET = 0.15). -/
def CIRCLE_OFFSET : ℚ := 15 / 100

/-- A stage of the calibration sequence with the coordinates captured so
far (calibrate.rs, Stage). -/
inductive Stage where
  | Stage0
  | Stage1 (c0 : WGeo.Point2D)
  | Stage2 (c0 c1 : WGeo.Point2D)
  | Stage3 (c0 c1 c2 : WGeo.Point2D)
  deriving DecidableEq, Repr

/-- The state during an ongoing calibration (calibrate.rs,
OngoingState): the stage, the touch cloud of the current stage, and the
last observed touch state. -/
structure OngoingState where
  stage : Stage
  touch_cloud : List WGeo.Point2D
  touch_state : Proto.TouchState
  deriving DecidableEq, Repr

/-- A calibration state: ongoing, or finished with the solved
calibration box (calibrate.rs, CalibrationState). -/
inductive CalibrationState where
  | Ongoing (s : OngoingState)
  | Finished (calibration_points : WGeo.AABB)
  deriving DecidableEq, Repr

/-- The helper average of OngoingState::advance: (t0 + t1) * 0.5. -/
def average (t0 t1 : ℚ) : ℚ := (t0 + t1) * (1 / 2)

/-- The helper cmin of OngoingState::advance:
t0 * (1 - o) / (1 - 2 o) - t1 * o / (1 - 2 o) with o the circle
offset (H = 1 - o - o in the source). -/
def cmin (t0 t1 : ℚ) : ℚ :=
  t0 * ((1 - CIRCLE_OFFSET) / (1 - CIRCLE_OFFSET - CIRCLE_OFFSET)) -
    t1 * (CIRCLE_OFFSET / (1 - CIRCLE_OFFSET - CIRCLE_OFFSET))

/-- The helper cmax of OngoingState::advance: t0 + t1 - min. -/
def cmax (t0 t1 mn : ℚ) : ℚ := t0 + t1 - mn

/-- A sample as consumed by the calibrator: touch flag and position. -/
structure CalPacket where
  touch_state : Proto.TouchState
  position : WGeo.Point2D
  deriving DecidableEq, Repr

/-- OngoingState::advance: the first three stages store the new
coordinate; the fourth capture averages the column and row coordinates
and solves the two-by-two linear system for the calibration box on each
axis. -/
def OngoingState.advance (s : OngoingState) (c : WGeo.Point2D) : CalibrationState :=
  match s.stage with
  | Stage.Stage0 => CalibrationState.Ongoing ⟨Stage.Stage1 c, [], Proto.TouchState.NotTouching⟩
  | Stage.Stage1 c0 =>
    CalibrationState.Ongoing ⟨Stage.Stage2 c0 c, [], Proto.TouchState.NotTouching⟩
  | Stage.Stage2 c0 c1 =>
    CalibrationState.Ongoing ⟨Stage.Stage3 c0 c1 c, [], Proto.TouchState.NotTouching⟩
  | Stage.Stage3 c0 c1 c2 =>
    let x0 := average c0.x c1.x
    let x1 := average c2.x c.x
    let y0 := average c0.y c2.y
    let y1 := average c1.y c.y
    let xmin := cmin x0 x1
    let xmax := cmax x0 x1 xmin
    let ymin := cmin y0 y1
    let ymax := cmax y0 y1 ymin
    CalibrationState.Finished (WGeo.AABB.new xmin ymin xmax ymax)

/-- TouchCloud::compute_touch_coord: the assertion that the cloud is
nonempty (none models its failure), then the midpoint of the smallest
box containing all points, folded with grow_to_point from the degenerate
box at the first point. -/
def computeTouchCoord : List WGeo.Point2D → Option WGeo.Point2D
  | [] => none
  | p :: rest =>
    some ((rest.foldl WGeo.AABB.grow_to_point (WGeo.AABB.new_wh p.x p.y 0 0)).midpoint)

/-- OngoingState::calibrate_with_packet: the incoming packet's position
is pushed onto the touch cloud first; then, exactly on a release edge
(last state touching, new packet not touching), the representative
coordinate is computed from the cloud and the stage advances.  The
returned pair is the optional new calibration state and the mutated
state (new cloud, new touch flag); the outer Option models the panic of
the nonemptiness assertion. -/
def OngoingState.calibrate_with_packet (s : OngoingState) (packet : CalPacket) :
    Option (Option CalibrationState × OngoingState) :=
  let cloud' := s.touch_cloud ++ [packet.position]
  match s.touch_state, packet.touch_state with
  | Proto.TouchState.IsTouching, Proto.TouchState.NotTouching =>
    match computeTouchCoord cloud' with
    | none => none
    | some coord =>
      some (some (OngoingState.advance { s with touch_cloud := cloud' } coord),
        { stage := s.stage, touch_cloud := cloud', touch_state := packet.touch_state })
  | _, _ =>
    some (none, { stage := s.stage, touch_cloud := cloud', touch_state := packet.touch_state })

end Cal

/-- Modelled from the spec's words (claim C7): a stage coordinate chosen
consistently with a target box sits, per axis, at the interpolation
(1 - t) * lo + t * hi of the axis at factor t (the guide layout uses the
factors o and 1 - o). -/
def specPoint (lo hi t : ℚ) : ℚ := (1 - t) * lo + t * hi

namespace Drv

open LegacyGeo

/-! ## Runs of the driver over sample traces (claims C5 and C6)

A touch is a trace of timestamped samples fed to update in order.  The
run function below threads the driver state through a trace and
concatenates the emitted batches; a trace run panics (none) exactly when
some update call does. -/

/-- Feed a list of timestamped samples to update in order, threading the
state and concatenating the emitted batches. -/
def run (cfg : MonitorConfig) (s : DriverState) :
    List (ℚ × Packet) → Option (DriverState × List Ev)
  | [] => some (s, [])
  | (t, pkt) :: rest =>
    match update cfg s t pkt with
    | none => none
    | some (evs, s') =>
      match run cfg s' rest with
      | none => none
      | some (s'', evs') => some (s'', evs ++ evs')

/-- A touching sample at a point. -/
def touchingAt (p : LegacyGeo.Point2D) : Packet := ⟨Proto.TouchState.IsTouching, p⟩

/-- A non-touching sample at a point. -/
def releaseAt (p : LegacyGeo.Point2D) : Packet := ⟨Proto.TouchState.NotTouching, p⟩

/-- The batch of the two move events and the sync marker appended to
every update result. -/
def moveTail (cfg : MonitorConfig) (p : LegacyGeo.Point2D) : List Ev :=
  [Ev.moveX (emitMoveXVal cfg p.x), Ev.moveY (emitMoveYVal cfg p.y), Ev.syn]

end Drv

/-! ## Theorems -/

namespace Proto

/-- The result of masking a byte with 0x06 is even: the mask clears bit 0. -/
theorem land_six_even (b : ℕ) : (b &&& 6) % 2 = 0 := by
  have h0 := Nat.testBit_and b 6 0
  simp only [Nat.testBit_zero, show ((6 : ℕ) % 2 = 1) = False from by norm_num, decide_False,
    Bool.and_false, decide_eq_false_iff_not] at h0
  omega

/-- The masked resolution selector never takes the value 0x05: the mask
0x06 clears bit 0, while 0x05 has bit 0 set.  Hence the table arm
0x05 of the lookup is dead code. -/
theorem masked_selector_ne_five (b : ℕ) : Nat.land b RESOLUTION_MASK ≠ 0x05 := by
  intro h
  have h' : b &&& 6 = 5 := h
  have heven := land_six_even b
  omega

/-- The masked resolution selector is always one of 0x00, 0x02, 0x04,
0x06 (the two bits kept by mask 0x06). -/
theorem masked_selector_mem (b : ℕ) :
    Nat.land b RESOLUTION_MASK = 0x00 ∨ Nat.land b RESOLUTION_MASK = 0x02 ∨
    Nat.land b RESOLUTION_MASK = 0x04 ∨ Nat.land b RESOLUTION_MASK = 0x06 := by
  have hle : b &&& 6 ≤ 6 := Nat.and_le_right
  have heven := land_six_even b
  show b &&& 6 = 0x00 ∨ b &&& 6 = 0x02 ∨ b &&& 6 = 0x04 ∨ b &&& 6 = 0x06
  omega

end Proto

/-- Claim C1: the claim asserts that the masked selector
frame[1] & 0x06 always lies in the domain {0x00, 0x02, 0x04, 0x05} of the
resolution table, that the remaining branch of the lookup is unreachable,
and that decode never panics.  This is false: the mask keeps bits 1 and 2,
so the selector ranges over {0x00, 0x02, 0x04, 0x06}; the 0x05 arm is dead
and a frame whose byte 1 has bits 1 and 2 both set reaches the
unreachable! arm.  This theorem evaluates the decoder at the concrete
frame [0x02, 0x06, 0x00, 0x00, 0x00, 0x00], which passes the tag check,
has masked selector 0x06, and makes try_parse panic (result none). -/
theorem C1_decode_panics_on_masked_selector_0x06 :
    Nat.land 0x06 Proto.RESOLUTION_MASK = 0x06 ∧
    Proto.tryParse ⟨0x02, 0x06, 0x00, 0x00, 0x00, 0x00⟩ (some Proto.PacketTag.TouchEvent) = none := by
  constructor
  · rfl
  · rfl

namespace Drv

open LegacyGeo

/-- On a well-formed state the button match never panics, and its event
list is one of five concrete shapes. -/
theorem updateButtons_shape (s : DriverState) (now : ℚ) (pkt : Packet) (hWF : WF s) :
    ∃ bs s₁, updateButtons s now pkt = some (bs, s₁) ∧
      (bs = [] ∨ bs = [Ev.btnPress Btn.left] ∨ bs = [Ev.btnPress Btn.right] ∨
       bs = [Ev.btnRelease Btn.left] ∨
       bs = [Ev.btnRelease Btn.left, Ev.btnRelease Btn.right]) := by
  cases hst : s.touch_state <;> cases hpt : pkt.touch_state
  · -- IsTouching, IsTouching
    obtain ⟨ho, ht⟩ := hWF hst
    obtain ⟨o, ho'⟩ := Option.ne_none_iff_exists'.mp ho
    obtain ⟨st, ht'⟩ := Option.ne_none_iff_exists'.mp ht
    by_cases hflags : (!s.is_right_click && !s.has_moved) = true
    · by_cases hmove : o.eucDistSq pkt.pos > HAS_MOVED_THRESHOLD ^ 2
      · exact ⟨[], { s with has_moved := true },
          by simp [updateButtons, hst, hpt, hflags, ho', ht', hmove], by simp⟩
      · by_cases hwait : now - st > RIGHT_CLICK_THRESHOLD
        · exact ⟨[Ev.btnPress Btn.right], { s with is_right_click := true },
            by simp [updateButtons, hst, hpt, hflags, ho', ht', hmove, hwait], by simp⟩
        · exact ⟨[], s,
            by simp [updateButtons, hst, hpt, hflags, ho', ht', hmove, hwait], by simp⟩
    · exact ⟨[], s, by simp [updateButtons, hst, hpt, hflags], by simp⟩
  · -- IsTouching, NotTouching
    by_cases hrc : s.is_right_click
    · exact ⟨[Ev.btnRelease Btn.left, Ev.btnRelease Btn.right], s.reset,
        by simp [updateButtons, hst, hpt, hrc], by simp⟩
    · exact ⟨[Ev.btnRelease Btn.left], s.reset,
        by simp [updateButtons, hst, hpt, hrc], by simp⟩
  · -- NotTouching, IsTouching
    exact ⟨[Ev.btnPress Btn.left],
      { s with touch_start_time := some now, touch_origin := some pkt.pos },
      by simp [updateButtons, hst, hpt], by simp⟩
  · -- NotTouching, NotTouching
    exact ⟨[], s, by simp [updateButtons, hst, hpt], by simp⟩

/-- Well-formedness holds at the default state. -/
theorem WF_default_state : WF default_state := by
  intro h
  simp [default_state] at h

/-- Well-formedness is preserved by every successful update call. -/
theorem WF_update (cfg : MonitorConfig) (s : DriverState) (now : ℚ) (pkt : Packet)
    (evs : List Ev) (s' : DriverState) (hWF : WF s)
    (h : update cfg s now pkt = some (evs, s')) : WF s' := by
  obtain ⟨bs, s₁, hb, _⟩ := updateButtons_shape s now pkt hWF
  rw [update, hb] at h
  simp only [Option.map_some] at h
  have hs' : s' = { s₁ with touch_state := pkt.touch_state, p := pkt.pos } :=
    congrArg Prod.snd (Option.some.inj h) |>.symm
  subst hs'
  intro htouch
  simp only at htouch
  -- The new touch flag is the packet's: only a touching packet matters.
  cases hst : s.touch_state <;> cases hpt : pkt.touch_state <;>
      simp only [updateButtons, hst, hpt] at hb <;> rw [hpt] at htouch
  · -- IsTouching, IsTouching: the origin and start time of s are kept.
    obtain ⟨ho, ht⟩ := hWF hst
    obtain ⟨o, ho'⟩ := Option.ne_none_iff_exists'.mp ho
    obtain ⟨st, ht'⟩ := Option.ne_none_iff_exists'.mp ht
    by_cases hflags : (!s.is_right_click && !s.has_moved) = true <;>
        simp only [hflags, ho', ht', if_true, if_false, Bool.false_eq_true] at hb
    · split at hb
      · cases Option.some.inj hb
        simp [ho', ht']
      · split at hb <;> cases Option.some.inj hb <;> simp [ho', ht']
    · cases Option.some.inj hb
      simp [ho', ht']
  · cases htouch
  · -- NotTouching, IsTouching: the origin and start time were just set.
    cases Option.some.inj hb
    simp
  · cases htouch

/-- Every reachable driver state is well-formed. -/
theorem Reachable_WF (s : DriverState) (h : Reachable s) : WF s := by
  induction h with
  | init => exact WF_default_state
  | step cfg s now pkt evs s' _ hup ih => exact WF_update cfg s now pkt evs s' ih hup

end Drv

/-- Claim C2 counterexample: the claim asserts every batch has zero or
one button event before the two moves and the sync marker.  Releasing a
touch during which a right-click was synthesized (state IsTouching with
is_right_click set, packet NotTouching) emits two button events: the
left release and the right release.  Evaluated at a concrete
configuration, state and sample. -/
theorem C2_counterexample_two_button_events :
    Drv.update ⟨⟨0, 0, 100, 100⟩, ⟨0, 0, 100, 100⟩, ⟨0, 0, 100, 100⟩⟩
        ⟨Proto.TouchState.IsTouching, true, false, ⟨0, 0⟩, some 0, some ⟨0, 0⟩⟩
        0 ⟨Proto.TouchState.NotTouching, ⟨0, 0⟩⟩ =
      some ([Drv.Ev.btnRelease Drv.Btn.left, Drv.Ev.btnRelease Drv.Btn.right,
             Drv.Ev.moveX (some 0), Drv.Ev.moveY (some 0), Drv.Ev.syn],
            ⟨Proto.TouchState.NotTouching, false, false, ⟨0, 0⟩, none, none⟩) ∧
    ¬ Drv.SpecBatchC2
        [Drv.Ev.btnRelease Drv.Btn.left, Drv.Ev.btnRelease Drv.Btn.right,
         Drv.Ev.moveX (some 0), Drv.Ev.moveY (some 0), Drv.Ev.syn] := by
  constructor
  · simp only [Drv.update, Drv.updateButtons, Drv.DriverState.reset, Drv.emitMoveXVal,
      Drv.emitMoveYVal, LegacyGeo.Range.lerp, LegacyGeo.Range.linear_factor, LegacyGeo.AABB.xr,
      LegacyGeo.AABB.yr, LegacyGeo.rustRound]
    norm_num
  · rintro (⟨x, y, h⟩ | ⟨e, x, y, _, h⟩) <;> simp at h

/-- Claim C2 (amended): for every configuration, well-formed state,
clock value and sample, the batch returned by update is a button prefix
followed by exactly two move events (X first, then Y) and one final sync
marker; the button prefix is empty, a single press or release, or — and
only in the case of releasing a touch during which a right-click was
synthesized — the left release followed by the right release. -/
theorem C2_batch_order_amended (cfg : Drv.MonitorConfig) (s : Drv.DriverState) (now : ℚ)
    (pkt : Drv.Packet) (hWF : Drv.WF s) :
    ∃ bs x y s', Drv.update cfg s now pkt =
        some (bs ++ [Drv.Ev.moveX x, Drv.Ev.moveY y, Drv.Ev.syn], s') ∧
      (bs = [] ∨ (∃ e, bs = [e] ∧ Drv.IsBtnEv e) ∨
        bs = [Drv.Ev.btnRelease Drv.Btn.left, Drv.Ev.btnRelease Drv.Btn.right]) := by
  obtain ⟨bs, s₁, hb, hshape⟩ := Drv.updateButtons_shape s now pkt hWF
  refine ⟨bs, Drv.emitMoveXVal cfg pkt.pos.x, Drv.emitMoveYVal cfg pkt.pos.y,
    { s₁ with touch_state := pkt.touch_state, p := pkt.pos },
    by simp only [Drv.update, hb, Option.map_some'], ?_⟩
  rcases hshape with h | h | h | h | h <;> subst h
  · exact Or.inl rfl
  · exact Or.inr (Or.inl ⟨_, rfl, Or.inl ⟨_, rfl⟩⟩)
  · exact Or.inr (Or.inl ⟨_, rfl, Or.inl ⟨_, rfl⟩⟩)
  · exact Or.inr (Or.inl ⟨_, rfl, Or.inr ⟨_, rfl⟩⟩)
  · exact Or.inr (Or.inr rfl)

/-- Witness for the amended claim C2 at a concrete input. -/
theorem C2_batch_order_amended_witness :
    ∃ bs x y s', Drv.update ⟨⟨0, 0, 100, 100⟩, ⟨0, 0, 100, 100⟩, ⟨0, 0, 100, 100⟩⟩
        Drv.default_state 0 ⟨Proto.TouchState.IsTouching, ⟨5, 5⟩⟩ =
        some (bs ++ [Drv.Ev.moveX x, Drv.Ev.moveY y, Drv.Ev.syn], s') ∧
      (bs = [] ∨ (∃ e, bs = [e] ∧ Drv.IsBtnEv e) ∨
        bs = [Drv.Ev.btnRelease Drv.Btn.left, Drv.Ev.btnRelease Drv.Btn.right]) :=
  C2_batch_order_amended _ _ _ _ Drv.WF_default_state

/-- Claim C3: update is total.  For every configuration (including one
with zero-length calibration ranges), every clock value, every sample
and every reachable driver state, update returns a batch (result some):
in particular the touch_origin and touch_start_time unwraps of the
touching-while-touching branch never fail on a reachable state. -/
theorem C3_update_total (cfg : Drv.MonitorConfig) (s : Drv.DriverState) (now : ℚ)
    (pkt : Drv.Packet) (hs : Drv.Reachable s) :
    ∃ evs s', Drv.update cfg s now pkt = some (evs, s') := by
  obtain ⟨bs, s₁, hb, _⟩ := Drv.updateButtons_shape s now pkt (Drv.Reachable_WF s hs)
  exact ⟨bs ++ [Drv.Ev.moveX (Drv.emitMoveXVal cfg pkt.pos.x),
      Drv.Ev.moveY (Drv.emitMoveYVal cfg pkt.pos.y), Drv.Ev.syn],
    { s₁ with touch_state := pkt.touch_state, p := pkt.pos },
    by simp only [Drv.update, hb, Option.map_some']⟩

/-- Witness for claim C3 at a concrete input: the initial state, a
configuration whose calibration ranges have zero length on both axes,
and a touching sample. -/
theorem C3_update_total_witness :
    ∃ evs s', Drv.update ⟨⟨7, 7, 7, 7⟩, ⟨0, 0, 100, 100⟩, ⟨0, 0, 100, 100⟩⟩
      Drv.default_state 0 ⟨Proto.TouchState.IsTouching, ⟨5, 5⟩⟩ = some (evs, s') :=
  C3_update_total _ _ _ _ Drv.Reachable.init

/-- On a nondegenerate calibration range the emitted x coordinate equals
the spec's formula, rounded to an integer. -/
theorem emitMoveXVal_spec (cfg : Drv.MonitorConfig) (v : ℚ)
    (h : cfg.calibration_points.xr.max ≠ cfg.calibration_points.xr.min) :
    Drv.emitMoveXVal cfg v =
      some (LegacyGeo.rustRound
        (specLerp cfg.monitor_area.xr (specLinearFactor cfg.calibration_points.xr v))) := by
  unfold Drv.emitMoveXVal LegacyGeo.Range.linear_factor LegacyGeo.Range.lerp
  rw [if_neg h]
  simp only [Option.map_some']
  congr 1
  unfold specLerp specLinearFactor
  have hd : cfg.calibration_points.xr.max - cfg.calibration_points.xr.min ≠ 0 :=
    sub_ne_zero.mpr h
  field_simp
  ring_nf

/-- On a nondegenerate calibration range the emitted y coordinate equals
the spec's formula, rounded to an integer. -/
theorem emitMoveYVal_spec (cfg : Drv.MonitorConfig) (v : ℚ)
    (h : cfg.calibration_points.yr.max ≠ cfg.calibration_points.yr.min) :
    Drv.emitMoveYVal cfg v =
      some (LegacyGeo.rustRound
        (specLerp cfg.monitor_area.yr (specLinearFactor cfg.calibration_points.yr v))) := by
  unfold Drv.emitMoveYVal LegacyGeo.Range.linear_factor LegacyGeo.Range.lerp
  rw [if_neg h]
  simp only [Option.map_some']
  congr 1
  unfold specLerp specLinearFactor
  have hd : cfg.calibration_points.yr.max - cfg.calibration_points.yr.min ≠ 0 :=
    sub_ne_zero.mpr h
  field_simp
  ring_nf

/-- Claim C4: for every sample, configuration with nondegenerate
calibration ranges and well-formed state, the move coordinates emitted
by update are, per axis, the monitor range linearly interpolated at
t = (v - min)/(max - min) of the calibration range, rounded to an
integer.  No clamping to the monitor area occurs: the equation holds for
every sample position, including positions outside the calibration
rectangle, whose factor t lies outside [0, 1]. -/
theorem C4_move_coordinates_follow_spec_formula (cfg : Drv.MonitorConfig)
    (s : Drv.DriverState) (now : ℚ) (pkt : Drv.Packet) (hWF : Drv.WF s)
    (hx : cfg.calibration_points.xr.max ≠ cfg.calibration_points.xr.min)
    (hy : cfg.calibration_points.yr.max ≠ cfg.calibration_points.yr.min) :
    ∃ bs s', Drv.update cfg s now pkt =
      some (bs ++
        [Drv.Ev.moveX (some (LegacyGeo.rustRound
          (specLerp cfg.monitor_area.xr (specLinearFactor cfg.calibration_points.xr pkt.pos.x)))),
         Drv.Ev.moveY (some (LegacyGeo.rustRound
          (specLerp cfg.monitor_area.yr (specLinearFactor cfg.calibration_points.yr pkt.pos.y)))),
         Drv.Ev.syn], s') := by
  obtain ⟨bs, s₁, hb, _⟩ := Drv.updateButtons_shape s now pkt hWF
  exact ⟨bs, { s₁ with touch_state := pkt.touch_state, p := pkt.pos },
    by simp only [Drv.update, hb, Option.map_some', emitMoveXVal_spec cfg pkt.pos.x hx,
      emitMoveYVal_spec cfg pkt.pos.y hy]⟩

/-- Witness for claim C4 at a concrete input: calibration box x in
[0, 100], monitor box x in [0, 10], and a touch at x = 200 far to the
right of the calibrated rectangle, whose factor is t = 2 and whose
output coordinate 20 lies outside the monitor range, exhibiting the
absence of clamping. -/
theorem C4_move_coordinates_follow_spec_formula_witness :
    ∃ bs s', Drv.update ⟨⟨0, 0, 100, 100⟩, ⟨0, 0, 10, 10⟩, ⟨0, 0, 10, 10⟩⟩
      Drv.default_state 0 ⟨Proto.TouchState.IsTouching, ⟨200, 200⟩⟩ =
      some (bs ++
        [Drv.Ev.moveX (some (LegacyGeo.rustRound
          (specLerp (LegacyGeo.AABB.xr ⟨0, 0, 10, 10⟩)
            (specLinearFactor (LegacyGeo.AABB.xr ⟨0, 0, 100, 100⟩) 200)))),
         Drv.Ev.moveY (some (LegacyGeo.rustRound
          (specLerp (LegacyGeo.AABB.yr ⟨0, 0, 10, 10⟩)
            (specLinearFactor (LegacyGeo.AABB.yr ⟨0, 0, 100, 100⟩) 200)))),
         Drv.Ev.syn], s') :=
  C4_move_coordinates_follow_spec_formula _ _ _ _ Drv.WF_default_state
    (by simp [LegacyGeo.AABB.xr]) (by simp [LegacyGeo.AABB.yr])

/-- Claim C9 counterexample: not every Range construction sorts its two
inputs.  The From tuple instance of the workspace geo.rs copies its
inputs unsorted, so the range built from the pair (5, 3) violates
min ≤ max. -/
theorem C9_counterexample_fromPair_unsorted :
    ¬ ((WGeo.Range.fromPair 5 3).min ≤ (WGeo.Range.fromPair 5 3).max) := by
  simp only [WGeo.Range.fromPair]
  norm_num

/-- Claim C9 (amended): Range::new sorts its two inputs, so ranges built
through it satisfy min ≤ max (but the From tuple instance copies its
inputs unsorted and need not); and every AABB satisfies x1 ≤ x2 and
y1 ≤ y2 after any construction (new, new_wh, the From tuple instance)
and after any operation (union and grow_to_point on normalized inputs,
and translate). -/
theorem C9_range_and_aabb_invariants :
    (∀ a b : ℚ, (WGeo.Range.new a b).min ≤ (WGeo.Range.new a b).max) ∧
    (∀ x1 y1 x2 y2 : ℚ, (WGeo.AABB.new x1 y1 x2 y2).Norm) ∧
    (∀ x y w h : ℚ, (WGeo.AABB.new_wh x y w h).Norm) ∧
    (∀ x1 y1 x2 y2 : ℚ, (WGeo.AABB.fromTuple x1 y1 x2 y2).Norm) ∧
    (∀ a b : WGeo.AABB, a.Norm → b.Norm → (a.union b).Norm) ∧
    (∀ (a : WGeo.AABB) (p : WGeo.Point2D), a.Norm → (a.grow_to_point p).Norm) ∧
    (∀ (a : WGeo.AABB) (x y : ℚ), (a.translate x y).Norm) := by
  refine ⟨?_, ?_, ?_, ?_, ?_, ?_, ?_⟩
  · intro a b
    exact min_le_max
  · intro x1 y1 x2 y2
    exact ⟨min_le_max, min_le_max⟩
  · intro x y w h
    exact ⟨min_le_max, min_le_max⟩
  · intro x1 y1 x2 y2
    exact ⟨min_le_max, min_le_max⟩
  · intro a b ha hb
    exact ⟨le_trans (min_le_left _ _) (le_trans ha.1 (le_max_left _ _)),
      le_trans (min_le_left _ _) (le_trans ha.2 (le_max_left _ _))⟩
  · intro a p ha
    exact ⟨le_trans (min_le_left _ _) (le_trans ha.1 (le_max_left _ _)),
      le_trans (min_le_left _ _) (le_trans ha.2 (le_max_left _ _))⟩
  · intro a x y
    exact ⟨min_le_max, min_le_max⟩

/-- Witness for the amended claim C9 at concrete inputs, including the
two conjuncts with hypotheses (union and grow_to_point on normalized
boxes). -/
theorem C9_range_and_aabb_invariants_witness :
    (WGeo.Range.new 1 0).min ≤ (WGeo.Range.new 1 0).max ∧
    (WGeo.AABB.union ⟨0, 0, 1, 1⟩ ⟨0, 0, 1, 1⟩).Norm ∧
    (WGeo.AABB.grow_to_point ⟨0, 0, 1, 1⟩ ⟨1, 1⟩).Norm :=
  ⟨C9_range_and_aabb_invariants.1 1 0,
   C9_range_and_aabb_invariants.2.2.2.2.1 ⟨0, 0, 1, 1⟩ ⟨0, 0, 1, 1⟩
     ⟨zero_le_one, zero_le_one⟩ ⟨zero_le_one, zero_le_one⟩,
   C9_range_and_aabb_invariants.2.2.2.2.2.1 ⟨0, 0, 1, 1⟩ ⟨1, 1⟩
     ⟨zero_le_one, zero_le_one⟩⟩

/-- Claim C8 counterexample: the claim states that linear_factor returns
0 on every zero-length range.  The legacy geometry module
(src/geo.rs of the top-level crate, the copy the driver links against)
instead returns the f64 NaN constant, modelled by none: evaluated at the
range with min = max = 0 and the value 5. -/
theorem C8_counterexample_legacy_returns_NaN :
    LegacyGeo.Range.linear_factor ⟨0, 0⟩ 5 = none ∧
    LegacyGeo.Range.linear_factor ⟨0, 0⟩ 5 ≠ some 0 := by
  constructor <;> simp [LegacyGeo.Range.linear_factor]

/-- Claim C8 (amended): in the workspace geometry module, linear_factor
returns 0 on every zero-length range and otherwise performs its division
by the nonzero length (so it never divides by zero); the legacy module
never divides by zero either, but returns NaN (none) instead of 0 on a
zero-length range. -/
theorem C8_linear_factor_zero_length_policy :
    (∀ (r : WGeo.Range) (v : ℚ), r.max = r.min → r.linear_factor v = 0) ∧
    (∀ (r : WGeo.Range) (v : ℚ), r.max ≠ r.min →
      r.linear_factor v * (r.max - r.min) = v - r.min) ∧
    (∀ (r : LegacyGeo.Range) (v : ℚ), r.max = r.min → r.linear_factor v = none) ∧
    (∀ (r : LegacyGeo.Range) (v : ℚ), r.max ≠ r.min →
      r.linear_factor v = some ((r.max - v) / (r.max - r.min))) := by
  refine ⟨?_, ?_, ?_, ?_⟩
  · intro r v h
    simp [WGeo.Range.linear_factor, h]
  · intro r v h
    rw [WGeo.Range.linear_factor, if_neg h, div_mul_cancel₀]
    exact sub_ne_zero.mpr h
  · intro r v h
    simp [LegacyGeo.Range.linear_factor, h]
  · intro r v h
    rw [LegacyGeo.Range.linear_factor, if_neg h]

/-- Witness for the amended claim C8 at concrete inputs: a zero-length
range and a range of length 2, in both modules. -/
theorem C8_linear_factor_zero_length_policy_witness :
    WGeo.Range.linear_factor ⟨4, 4⟩ 9 = 0 ∧
    WGeo.Range.linear_factor ⟨0, 2⟩ 1 * ((2 : ℚ) - 0) = 1 - 0 ∧
    LegacyGeo.Range.linear_factor ⟨4, 4⟩ 9 = none ∧
    LegacyGeo.Range.linear_factor ⟨0, 2⟩ 1 = some (((2 : ℚ) - 1) / (2 - 0)) :=
  ⟨C8_linear_factor_zero_length_policy.1 ⟨4, 4⟩ 9 rfl,
   C8_linear_factor_zero_length_policy.2.1 ⟨0, 2⟩ 1 (by simp),
   C8_linear_factor_zero_length_policy.2.2.1 ⟨4, 4⟩ 9 rfl,
   C8_linear_factor_zero_length_policy.2.2.2 ⟨0, 2⟩ 1 (by simp)⟩

/-- Claim C10: in every calibration state (reachable or not) and for
every packet, calibrate_with_packet pushes the packet's position onto
the cloud before checking for a release edge, so the cloud passed to
compute_touch_coord is never empty and the nonemptiness assertion never
fires: the call always returns a result. -/
theorem C10_calibrate_with_packet_never_asserts (s : Cal.OngoingState)
    (packet : Cal.CalPacket) :
    ∃ r, Cal.OngoingState.calibrate_with_packet s packet = some r := by
  obtain ⟨h, t, hc⟩ : ∃ h t, s.touch_cloud ++ [packet.position] = h :: t := by
    cases s.touch_cloud <;> simp
  rw [Cal.OngoingState.calibrate_with_packet]
  cases hs : s.touch_state <;> cases hp : packet.touch_state <;>
    simp only [hc, Cal.computeTouchCoord] <;> exact ⟨_, rfl⟩

/-- Per axis, the solved minimum recovers the low edge of the target
box. -/
theorem solveMinAxis (a b : ℚ) :
    Cal.cmin
      (Cal.average (specPoint a b Cal.CIRCLE_OFFSET) (specPoint a b Cal.CIRCLE_OFFSET))
      (Cal.average (specPoint a b (1 - Cal.CIRCLE_OFFSET))
        (specPoint a b (1 - Cal.CIRCLE_OFFSET))) = a := by
  unfold Cal.cmin Cal.average specPoint Cal.CIRCLE_OFFSET
  ring

/-- Per axis, the solved maximum recovers the high edge of the target
box (stated after the minimum has been rewritten to the low edge). -/
theorem solveMaxAxis (a b : ℚ) :
    Cal.cmax
      (Cal.average (specPoint a b Cal.CIRCLE_OFFSET) (specPoint a b Cal.CIRCLE_OFFSET))
      (Cal.average (specPoint a b (1 - Cal.CIRCLE_OFFSET))
        (specPoint a b (1 - Cal.CIRCLE_OFFSET))) a = b := by
  unfold Cal.cmax Cal.average specPoint Cal.CIRCLE_OFFSET
  ring

/-- Claim C7: calibration solve round-trip.  For every normalized target
box and the fixed offset o = 0.15, capturing the four stage coordinates
at the guide layout positions (per-axis interpolation factors o and
1 - o: c0 top-left, c1 bottom-left, c2 top-right, then the final capture
bottom-right) makes the solve step of the fourth capture return exactly
the target box.  In this embedding the arithmetic is exact, so the
recovery is exact (tolerance zero). -/
theorem C7_calibration_solve_round_trip (x1 y1 x2 y2 : ℚ) (hx : x1 ≤ x2) (hy : y1 ≤ y2) :
    Cal.OngoingState.advance
      ⟨Cal.Stage.Stage3
        ⟨specPoint x1 x2 Cal.CIRCLE_OFFSET, specPoint y1 y2 Cal.CIRCLE_OFFSET⟩
        ⟨specPoint x1 x2 Cal.CIRCLE_OFFSET, specPoint y1 y2 (1 - Cal.CIRCLE_OFFSET)⟩
        ⟨specPoint x1 x2 (1 - Cal.CIRCLE_OFFSET), specPoint y1 y2 Cal.CIRCLE_OFFSET⟩,
        [], Proto.TouchState.NotTouching⟩
      ⟨specPoint x1 x2 (1 - Cal.CIRCLE_OFFSET), specPoint y1 y2 (1 - Cal.CIRCLE_OFFSET)⟩ =
    Cal.CalibrationState.Finished ⟨x1, y1, x2, y2⟩ := by
  simp only [Cal.OngoingState.advance]
  rw [solveMinAxis x1 x2, solveMinAxis y1 y2, solveMaxAxis x1 x2, solveMaxAxis y1 y2]
  simp [WGeo.AABB.new, min_eq_left, max_eq_right, hx, hy]

/-- Witness for claim C7 at the concrete target box with corners (0, 0)
and (1, 1). -/
theorem C7_calibration_solve_round_trip_witness :
    Cal.OngoingState.advance
      ⟨Cal.Stage.Stage3
        ⟨specPoint 0 1 Cal.CIRCLE_OFFSET, specPoint 0 1 Cal.CIRCLE_OFFSET⟩
        ⟨specPoint 0 1 Cal.CIRCLE_OFFSET, specPoint 0 1 (1 - Cal.CIRCLE_OFFSET)⟩
        ⟨specPoint 0 1 (1 - Cal.CIRCLE_OFFSET), specPoint 0 1 Cal.CIRCLE_OFFSET⟩,
        [], Proto.TouchState.NotTouching⟩
      ⟨specPoint 0 1 (1 - Cal.CIRCLE_OFFSET), specPoint 0 1 (1 - Cal.CIRCLE_OFFSET)⟩ =
    Cal.CalibrationState.Finished ⟨0, 0, 1, 1⟩ :=
  C7_calibration_solve_round_trip 0 0 1 1 zero_le_one zero_le_one

namespace Drv

open LegacyGeo

/-- Touchdown step: from a not-touching state with cleared flags, a
touching sample presses the left button and records the clock value and
origin. -/
theorem step_touchdown (cfg : MonitorConfig) (s : DriverState) (t0 : ℚ)
    (P : LegacyGeo.Point2D) (h1 : s.touch_state = Proto.TouchState.NotTouching)
    (h2 : s.is_right_click = false) (h3 : s.has_moved = false) :
    update cfg s t0 (touchingAt P) =
      some (Ev.btnPress Btn.left :: moveTail cfg P,
        ⟨Proto.TouchState.IsTouching, false, false, P, some t0, some P⟩) := by
  cases s
  simp only at h1 h2 h3
  subst h1; subst h2; subst h3
  simp [update, updateButtons, touchingAt, moveTail]

/-- Flag-blocked touching step: while touching, if the right click was
already synthesized or the finger has moved, the sample only moves the
pointer. -/
theorem step_touching_flagged (cfg : MonitorConfig) (s : DriverState) (t : ℚ)
    (q : LegacyGeo.Point2D) (h1 : s.touch_state = Proto.TouchState.IsTouching)
    (hflags : (!s.is_right_click && !s.has_moved) = false) :
    update cfg s t (touchingAt q) =
      some (moveTail cfg q,
        { s with touch_state := Proto.TouchState.IsTouching, p := q }) := by
  simp [update, updateButtons, touchingAt, moveTail, h1, hflags]

/-- Drift step: while touching with both flags clear, a sample farther
than the threshold from the origin sets has_moved and emits no button
event. -/
theorem step_touching_drift (cfg : MonitorConfig) (s : DriverState) (t : ℚ)
    (q P : LegacyGeo.Point2D) (h1 : s.touch_state = Proto.TouchState.IsTouching)
    (hrc : s.is_right_click = false) (hmv : s.has_moved = false)
    (horigin : s.touch_origin = some P)
    (hdist : P.eucDistSq q > HAS_MOVED_THRESHOLD ^ 2) :
    update cfg s t (touchingAt q) =
      some (moveTail cfg q,
        { s with has_moved := true, touch_state := Proto.TouchState.IsTouching, p := q }) := by
  simp [update, updateButtons, touchingAt, moveTail, h1, hrc, hmv, horigin, hdist]

/-- Early still step: while touching with both flags clear, a sample
within the threshold before the right-click wait has elapsed changes
nothing and emits no button event. -/
theorem step_touching_still_early (cfg : MonitorConfig) (s : DriverState) (t t0 : ℚ)
    (q P : LegacyGeo.Point2D) (h1 : s.touch_state = Proto.TouchState.IsTouching)
    (hrc : s.is_right_click = false) (hmv : s.has_moved = false)
    (horigin : s.touch_origin = some P) (hstart : s.touch_start_time = some t0)
    (hdist : ¬ P.eucDistSq q > HAS_MOVED_THRESHOLD ^ 2)
    (htime : ¬ t - t0 > RIGHT_CLICK_THRESHOLD) :
    update cfg s t (touchingAt q) =
      some (moveTail cfg q,
        { s with touch_state := Proto.TouchState.IsTouching, p := q }) := by
  simp [update, updateButtons, touchingAt, moveTail, h1, hrc, hmv, horigin, hstart, hdist, htime]

/-- Late still step: while touching with both flags clear, a sample
within the threshold after the right-click wait has elapsed synthesizes
the right-button press. -/
theorem step_touching_late (cfg : MonitorConfig) (s : DriverState) (t t0 : ℚ)
    (q P : LegacyGeo.Point2D) (h1 : s.touch_state = Proto.TouchState.IsTouching)
    (hrc : s.is_right_click = false) (hmv : s.has_moved = false)
    (horigin : s.touch_origin = some P) (hstart : s.touch_start_time = some t0)
    (hdist : ¬ P.eucDistSq q > HAS_MOVED_THRESHOLD ^ 2)
    (htime : t - t0 > RIGHT_CLICK_THRESHOLD) :
    update cfg s t (touchingAt q) =
      some (Ev.btnPress Btn.right :: moveTail cfg q,
        { s with is_right_click := true, touch_state := Proto.TouchState.IsTouching, p := q }) := by
  simp [update, updateButtons, touchingAt, moveTail, h1, hrc, hmv, horigin, hstart, hdist, htime]

/-- Release step: a non-touching sample while touching releases the left
button, also the right button if a right click was synthesized, and
resets the state. -/
theorem step_release (cfg : MonitorConfig) (s : DriverState) (t : ℚ)
    (q : LegacyGeo.Point2D) (h1 : s.touch_state = Proto.TouchState.IsTouching) :
    update cfg s t (releaseAt q) =
      some ((Ev.btnRelease Btn.left ::
          (if s.is_right_click then [Ev.btnRelease Btn.right] else [])) ++ moveTail cfg q,
        ⟨Proto.TouchState.NotTouching, false, false, q, none, none⟩) := by
  simp [update, updateButtons, DriverState.reset, releaseAt, moveTail, h1]

/-- Unfolding a run one step. -/
theorem run_cons (cfg : MonitorConfig) (s : DriverState) (t : ℚ) (pkt : Packet)
    (rest : List (ℚ × Packet)) (evs : List Ev) (s₁ s₂ : DriverState) (evs' : List Ev)
    (h1 : update cfg s t pkt = some (evs, s₁))
    (h2 : run cfg s₁ rest = some (s₂, evs')) :
    run cfg s ((t, pkt) :: rest) = some (s₂, evs ++ evs') := by
  simp only [run, h1, h2]

/-- After has_moved is set (and while no right click was synthesized),
feeding any further touching samples and a final release emits no
right-button press. -/
theorem moved_run_no_right_press (cfg : MonitorConfig) :
    ∀ (samples : List (ℚ × LegacyGeo.Point2D)) (s : DriverState),
      s.touch_state = Proto.TouchState.IsTouching → s.is_right_click = false →
      s.has_moved = true →
      ∀ (tEnd : ℚ) (Q : LegacyGeo.Point2D),
        ∃ s' evs,
          run cfg s (samples.map (fun x => (x.1, touchingAt x.2)) ++ [(tEnd, releaseAt Q)]) =
            some (s', evs) ∧ Ev.btnPress Btn.right ∉ evs := by
  intro samples
  induction samples with
  | nil =>
    intro s h1 hrc hmv tEnd Q
    refine ⟨⟨Proto.TouchState.NotTouching, false, false, Q, none, none⟩,
      ((Ev.btnRelease Btn.left ::
        (if s.is_right_click then [Ev.btnRelease Btn.right] else [])) ++ moveTail cfg Q) ++ [],
      ?_, ?_⟩
    · exact run_cons cfg s tEnd (releaseAt Q) [] _ _ _ []
        (step_release cfg s tEnd Q h1) rfl
    · simp [moveTail, hrc]
  | cons hd rest ih =>
    intro s h1 hrc hmv tEnd Q
    have hflags : (!s.is_right_click && !s.has_moved) = false := by
      rw [hrc, hmv]; rfl
    have hstep := step_touching_flagged cfg s hd.1 hd.2 h1 hflags
    obtain ⟨s', evs, hrun, hni⟩ :=
      ih { s with touch_state := Proto.TouchState.IsTouching, p := hd.2 } rfl hrc hmv tEnd Q
    refine ⟨s', moveTail cfg hd.2 ++ evs, ?_, ?_⟩
    · rw [List.map_cons, List.cons_append]
      exact run_cons cfg s hd.1 (touchingAt hd.2) _ _ _ _ _ hstep hrun
    · simp [moveTail, hni]

/-- Claim C5 core induction: while touching with both flags clear, if
some sample of the remaining trace drifts past the threshold no later
(by the sorted timestamps) than the right-click wait allows, then no
right-button press is emitted by the remaining trace, including its
final release. -/
theorem drift_run_no_right_press (cfg : MonitorConfig) (P : LegacyGeo.Point2D) (t0 : ℚ) :
    ∀ (samples : List (ℚ × LegacyGeo.Point2D)) (s : DriverState),
      s.touch_state = Proto.TouchState.IsTouching → s.is_right_click = false →
      s.has_moved = false → s.touch_origin = some P → s.touch_start_time = some t0 →
      List.Sorted (· ≤ ·) (samples.map Prod.fst) →
      (∃ x ∈ samples, P.eucDistSq x.2 > HAS_MOVED_THRESHOLD ^ 2 ∧
        x.1 - t0 ≤ RIGHT_CLICK_THRESHOLD) →
      ∀ (tEnd : ℚ) (Q : LegacyGeo.Point2D),
        ∃ s' evs,
          run cfg s (samples.map (fun x => (x.1, touchingAt x.2)) ++ [(tEnd, releaseAt Q)]) =
            some (s', evs) ∧ Ev.btnPress Btn.right ∉ evs := by
  intro samples
  induction samples with
  | nil =>
    intro s _ _ _ _ _ _ hdrift
    obtain ⟨x, hx, _⟩ := hdrift
    exact absurd hx (List.not_mem_nil x)
  | cons hd rest ih =>
    intro s h1 hrc hmv ho hst hsorted hdrift tEnd Q
    rw [List.map_cons, List.sorted_cons] at hsorted
    by_cases hd_drift : P.eucDistSq hd.2 > HAS_MOVED_THRESHOLD ^ 2
    · have hstep := step_touching_drift cfg s hd.1 hd.2 P h1 hrc hmv ho hd_drift
      obtain ⟨s', evs, hrun, hni⟩ := moved_run_no_right_press cfg rest
        { s with has_moved := true, touch_state := Proto.TouchState.IsTouching, p := hd.2 }
        rfl hrc rfl tEnd Q
      refine ⟨s', moveTail cfg hd.2 ++ evs, ?_, ?_⟩
      · rw [List.map_cons, List.cons_append]
        exact run_cons cfg s hd.1 (touchingAt hd.2) _ _ _ _ _ hstep hrun
      · simp [moveTail, hni]
    · obtain ⟨x, hx, hxd, hxt⟩ := hdrift
      have hx_tail : x ∈ rest := by
        rcases List.mem_cons.mp hx with hx_hd | hx_tail
        · exact absurd (hx_hd ▸ hxd) hd_drift
        · exact hx_tail
      have hd_le : hd.1 ≤ x.1 := hsorted.1 x.1 (List.mem_map_of_mem Prod.fst hx_tail)
      have hstep := step_touching_still_early cfg s hd.1 t0 hd.2 P h1 hrc hmv ho hst hd_drift
        (by linarith)
      obtain ⟨s', evs, hrun, hni⟩ :=
        ih { s with touch_state := Proto.TouchState.IsTouching, p := hd.2 }
          rfl hrc hmv ho hst hsorted.2 ⟨x, hx_tail, hxd, hxt⟩ tEnd Q
      refine ⟨s', moveTail cfg hd.2 ++ evs, ?_, ?_⟩
      · rw [List.map_cons, List.cons_append]
        exact run_cons cfg s hd.1 (touchingAt hd.2) _ _ _ _ _ hstep hrun
      · simp [moveTail, hni]

end Drv

/-- Claim C5: right-click suppression is permanent for the touch.
Starting from a pre-touch state (not touching, flags clear), feed the
touchdown at point P and clock t0, then any sorted-in-time sequence of
touching samples among which some sample drifts farther than
has_moved_threshold from the origin while no more than right_click_wait
has elapsed since t0, and a final release.  No right-button press is
ever emitted during the whole touch, even if later samples return to the
origin and the hold lasts past right_click_wait. -/
theorem C5_drift_suppresses_right_click (cfg : Drv.MonitorConfig) (s0 : Drv.DriverState)
    (P Q : LegacyGeo.Point2D) (t0 tEnd : ℚ) (samples : List (ℚ × LegacyGeo.Point2D))
    (h1 : s0.touch_state = Proto.TouchState.NotTouching)
    (h2 : s0.is_right_click = false) (h3 : s0.has_moved = false)
    (hsorted : List.Sorted (· ≤ ·) (samples.map Prod.fst))
    (hdrift : ∃ x ∈ samples,
      LegacyGeo.Point2D.eucDistSq P x.2 > Drv.HAS_MOVED_THRESHOLD ^ 2 ∧
      x.1 - t0 ≤ Drv.RIGHT_CLICK_THRESHOLD) :
    ∃ s' evs, Drv.run cfg s0
        ((t0, Drv.touchingAt P) ::
          (samples.map (fun x => (x.1, Drv.touchingAt x.2)) ++ [(tEnd, Drv.releaseAt Q)])) =
        some (s', evs) ∧ Drv.Ev.btnPress Drv.Btn.right ∉ evs := by
  have hstep := Drv.step_touchdown cfg s0 t0 P h1 h2 h3
  obtain ⟨s', evs, hrun, hni⟩ := Drv.drift_run_no_right_press cfg P t0 samples
    ⟨Proto.TouchState.IsTouching, false, false, P, some t0, some P⟩
    rfl rfl rfl rfl rfl hsorted hdrift tEnd Q
  refine ⟨s', (Drv.Ev.btnPress Drv.Btn.left :: Drv.moveTail cfg P) ++ evs, ?_, ?_⟩
  · exact Drv.run_cons cfg s0 t0 (Drv.touchingAt P) _ _ _ _ _ hstep hrun
  · simp [Drv.moveTail, hni]

/-- Witness for claim C5 at a concrete trace: touchdown at the origin at
time 0, one sample 100 units away at time 100 (within the 1500 ms wait),
then a release at time 2000. -/
theorem C5_drift_suppresses_right_click_witness :
    ∃ s' evs, Drv.run ⟨⟨0, 0, 100, 100⟩, ⟨0, 0, 100, 100⟩, ⟨0, 0, 100, 100⟩⟩
        Drv.default_state
        ((0, Drv.touchingAt ⟨0, 0⟩) ::
          ([((100 : ℚ), (⟨100, 0⟩ : LegacyGeo.Point2D))].map
            (fun x => (x.1, Drv.touchingAt x.2)) ++ [(2000, Drv.releaseAt ⟨0, 0⟩)])) =
        some (s', evs) ∧ Drv.Ev.btnPress Drv.Btn.right ∉ evs :=
  C5_drift_suppresses_right_click _ _ _ _ _ _ _ rfl rfl rfl
    (by simp)
    ⟨(100, ⟨100, 0⟩), by simp,
      by norm_num [LegacyGeo.Point2D.eucDistSq, Drv.HAS_MOVED_THRESHOLD],
      by norm_num [Drv.RIGHT_CLICK_THRESHOLD]⟩

namespace Drv

open LegacyGeo

/-- After the right click was synthesized, feeding further touching
samples and a final release emits no further right-button press. -/
theorem rc_run_no_more_press (cfg : MonitorConfig) (P : LegacyGeo.Point2D) :
    ∀ (ts : List ℚ) (s : DriverState),
      s.touch_state = Proto.TouchState.IsTouching → s.is_right_click = true →
      ∀ (tEnd : ℚ),
        ∃ s' evs,
          run cfg s (ts.map (fun t => (t, touchingAt P)) ++ [(tEnd, releaseAt P)]) =
            some (s', evs) ∧ evs.count (Ev.btnPress Btn.right) = 0 := by
  intro ts
  induction ts with
  | nil =>
    intro s h1 hrc tEnd
    refine ⟨⟨Proto.TouchState.NotTouching, false, false, P, none, none⟩,
      ((Ev.btnRelease Btn.left ::
        (if s.is_right_click then [Ev.btnRelease Btn.right] else [])) ++ moveTail cfg P) ++ [],
      ?_, ?_⟩
    · exact run_cons cfg s tEnd (releaseAt P) [] _ _ _ []
        (step_release cfg s tEnd P h1) rfl
    · simp [moveTail, hrc]
  | cons t₁ rest ih =>
    intro s h1 hrc tEnd
    have hflags : (!s.is_right_click && !s.has_moved) = false := by rw [hrc]; rfl
    have hstep := step_touching_flagged cfg s t₁ P h1 hflags
    obtain ⟨s', evs, hrun, hcount⟩ :=
      ih { s with touch_state := Proto.TouchState.IsTouching, p := P } rfl hrc tEnd
    refine ⟨s', moveTail cfg P ++ evs, ?_, ?_⟩
    · rw [List.map_cons, List.cons_append]
      exact run_cons cfg s t₁ (touchingAt P) _ _ _ _ _ hstep hrun
    · simp [moveTail, List.count_append, hcount]

/-- Claim C6 core induction: while touching at the origin with both
flags clear, if some remaining sample time exceeds the right-click wait,
then the remaining trace (ending in a release) emits exactly one
right-button press, and no left-button release precedes it. -/
theorem wait_run_one_right_press (cfg : MonitorConfig) (P : LegacyGeo.Point2D) (t0 : ℚ) :
    ∀ (ts : List ℚ) (s : DriverState),
      s.touch_state = Proto.TouchState.IsTouching → s.is_right_click = false →
      s.has_moved = false → s.touch_origin = some P → s.touch_start_time = some t0 →
      (∃ t ∈ ts, t - t0 > RIGHT_CLICK_THRESHOLD) →
      ∀ (tEnd : ℚ),
        ∃ s' evs,
          run cfg s (ts.map (fun t => (t, touchingAt P)) ++ [(tEnd, releaseAt P)]) =
            some (s', evs) ∧
          evs.count (Ev.btnPress Btn.right) = 1 ∧
          ∃ l1 l2, evs = l1 ++ Ev.btnPress Btn.right :: l2 ∧ Ev.btnRelease Btn.left ∉ l1 := by
  intro ts
  induction ts with
  | nil =>
    intro s _ _ _ _ _ hlate
    obtain ⟨t, ht, _⟩ := hlate
    exact absurd ht (List.not_mem_nil t)
  | cons t₁ rest ih =>
    intro s h1 hrc hmv ho hst hlate tEnd
    have hdist : ¬ LegacyGeo.Point2D.eucDistSq P P > HAS_MOVED_THRESHOLD ^ 2 := by
      simp [LegacyGeo.Point2D.eucDistSq, HAS_MOVED_THRESHOLD]
    by_cases hlate₁ : t₁ - t0 > RIGHT_CLICK_THRESHOLD
    · -- The right press fires at this very sample.
      have hstep := step_touching_late cfg s t₁ t0 P P h1 hrc hmv ho hst hdist hlate₁
      obtain ⟨s', evs, hrun, hcount⟩ := rc_run_no_more_press cfg P rest
        { s with is_right_click := true, touch_state := Proto.TouchState.IsTouching, p := P }
        rfl rfl tEnd
      refine ⟨s', (Ev.btnPress Btn.right :: moveTail cfg P) ++ evs, ?_, ?_,
        [], moveTail cfg P ++ evs, by simp, by simp⟩
      · rw [List.map_cons, List.cons_append]
        exact run_cons cfg s t₁ (touchingAt P) _ _ _ _ _ hstep hrun
      · simp [moveTail, List.count_append, List.count_cons, hcount]
    · -- Too early: nothing happens at this sample; the witness is later.
      obtain ⟨t, ht, htd⟩ := hlate
      have ht_tail : t ∈ rest := by
        rcases List.mem_cons.mp ht with ht_hd | ht_tail
        · exact absurd (ht_hd ▸ htd) hlate₁
        · exact ht_tail
      have hstep := step_touching_still_early cfg s t₁ t0 P P h1 hrc hmv ho hst hdist hlate₁
      obtain ⟨s', evs, hrun, hcount, l1, l2, hsplit, hnorel⟩ :=
        ih { s with touch_state := Proto.TouchState.IsTouching, p := P }
          rfl hrc hmv ho hst ⟨t, ht_tail, htd⟩ tEnd
      refine ⟨s', moveTail cfg P ++ evs, ?_, ?_, moveTail cfg P ++ l1, l2, ?_, ?_⟩
      · rw [List.map_cons, List.cons_append]
        exact run_cons cfg s t₁ (touchingAt P) _ _ _ _ _ hstep hrun
      · simp [moveTail, List.count_append, hcount]
      · rw [hsplit, List.append_assoc]
      · simp [moveTail, hnorel]

end Drv

/-- Claim C6: feeding a not-touching to touching transition at point P
at clock t0, then touching samples at the same P among which some clock
value exceeds t0 plus right_click_wait, then a release, emits exactly
one right-button press over the whole touch, and that press precedes any
left-button release. -/
theorem C6_right_click_once_before_release (cfg : Drv.MonitorConfig) (s0 : Drv.DriverState)
    (P : LegacyGeo.Point2D) (t0 tEnd : ℚ) (ts : List ℚ)
    (h1 : s0.touch_state = Proto.TouchState.NotTouching)
    (h2 : s0.is_right_click = false) (h3 : s0.has_moved = false)
    (hlate : ∃ t ∈ ts, t - t0 > Drv.RIGHT_CLICK_THRESHOLD) :
    ∃ s' evs, Drv.run cfg s0
        ((t0, Drv.touchingAt P) ::
          (ts.map (fun t => (t, Drv.touchingAt P)) ++ [(tEnd, Drv.releaseAt P)])) =
        some (s', evs) ∧
      evs.count (Drv.Ev.btnPress Drv.Btn.right) = 1 ∧
      ∃ l1 l2, evs = l1 ++ Drv.Ev.btnPress Drv.Btn.right :: l2 ∧
        Drv.Ev.btnRelease Drv.Btn.left ∉ l1 := by
  have hstep := Drv.step_touchdown cfg s0 t0 P h1 h2 h3
  obtain ⟨s', evs, hrun, hcount, l1, l2, hsplit, hnorel⟩ :=
    Drv.wait_run_one_right_press cfg P t0 ts
      ⟨Proto.TouchState.IsTouching, false, false, P, some t0, some P⟩
      rfl rfl rfl rfl rfl hlate tEnd
  refine ⟨s', (Drv.Ev.btnPress Drv.Btn.left :: Drv.moveTail cfg P) ++ evs, ?_, ?_,
    (Drv.Ev.btnPress Drv.Btn.left :: Drv.moveTail cfg P) ++ l1, l2, ?_, ?_⟩
  · exact Drv.run_cons cfg s0 t0 (Drv.touchingAt P) _ _ _ _ _ hstep hrun
  · simp [Drv.moveTail, List.count_append, List.count_cons, hcount]
  · rw [hsplit, List.append_assoc]
  · simp [Drv.moveTail, hnorel]

/-- Witness for claim C6 at a concrete trace: touchdown at the origin at
time 0, one further sample at the same point at time 1600 (past the
1500 ms wait), then a release at time 2000. -/
theorem C6_right_click_once_before_release_witness :
    ∃ s' evs, Drv.run ⟨⟨0, 0, 100, 100⟩, ⟨0, 0, 100, 100⟩, ⟨0, 0, 100, 100⟩⟩
        Drv.default_state
        ((0, Drv.touchingAt ⟨0, 0⟩) ::
          ([(1600 : ℚ)].map (fun t => (t, Drv.touchingAt ⟨0, 0⟩)) ++
            [(2000, Drv.releaseAt ⟨0, 0⟩)])) =
        some (s', evs) ∧
      evs.count (Drv.Ev.btnPress Drv.Btn.right) = 1 ∧
      ∃ l1 l2, evs = l1 ++ Drv.Ev.btnPress Drv.Btn.right :: l2 ∧
        Drv.Ev.btnRelease Drv.Btn.left ∉ l1 :=
  C6_right_click_once_before_release _ _ _ _ _ _ rfl rfl rfl
    ⟨1600, by simp, by norm_num [Drv.RIGHT_CLICK_THRESHOLD]⟩
